import Mathlib

/-!
Verification development for the two-replica state-reconciliation engine
in `poc-02.py` (OfflineIMAP/imapfw-poc).

The Python program is embedded shallowly:

* A `Message` carries `uid`, `body`, the `unkown` marker, its `flags`
  (only the two attributes `'read'` and `'important'` that the program's
  change ledgers ever hold — `DEFAULT_CHANGES = {'read': None,
  'important': None}`), and two references into an explicit heap of
  change dictionaries.  The heap is needed because the source aliases
  dictionaries: `Message.__init__` assigns the class-level dict
  `DEFAULT_CHANGES` itself to both `self.changes` and
  `self.stateChanges` (no copy), `copy.deepcopy` preserves aliasing
  inside one message via its memo, and `Message.merge` writes through
  `self.changes` and `self.stateChanges` in sequence.  Heap slot 0 is
  the `Message.DEFAULT_CHANGES` class attribute.
* Python dicts keep insertion order, so every keyed collection
  (`Messages`, `Storage.data`) is an association list; updating an
  existing key keeps its position, a fresh key is appended.
* Mutation of stored message objects (`markUnkown`, flag writes by
  `fakeDriverWrites`/`fakeStateWrites`) becomes an explicit write-back
  into the owning store; mutation of change dictionaries goes through
  the heap.  Message objects are held by value in the collections, so a
  state in which two stores alias one message *object* is not
  representable; every theorem below starts from stores holding
  separate objects (the shape `fakeChange`, which deep-copies, always
  produces), and over the rounds the theorems compute, the source
  mutates stored objects only through the write-backs and heap writes
  modelled here, so the embedding is observationally faithful on those
  states.  Dictionary aliasing — the part the source actually exercises
  — is fully represented by the reference heap.
* `assert` statements (`Message.identical`, `Message.merge`) are
  modelled by `Option`-returning checked variants: `none` is the
  `AssertionError` aborting the program, produced before any mutation.
  Inside keyed collections the key always equals the stored message's
  `uid`, so the unchecked code paths use the flag comparison directly.
* `Driver.update` raising `IOError` (when `FakeDriverWriteError` is
  set) is modelled by a `Bool` success component; the flag is consumed
  exactly as in the source (reset to `False` before raising).
-/

/-- Attribute names of the fixed schema `{'read', 'important'}`.  The
source's `setDeleted` would add a third key `'deleted'` to `flags`, but
no ledger ever holds it and the engine paths never call `setDeleted`, so
the modelled schema is the ledger schema. -/
inductive MsgFlag where
  | read
  | important
deriving DecidableEq, Repr

/-- The `flags` dictionary of a message: current boolean attributes. -/
structure Flags where
  read : Bool
  important : Bool
deriving DecidableEq, Repr

def Flags.get (fl : Flags) : MsgFlag → Bool
  | MsgFlag.read => fl.read
  | MsgFlag.important => fl.important

def Flags.set (fl : Flags) : MsgFlag → Bool → Flags
  | MsgFlag.read, v => { fl with read := v }
  | MsgFlag.important, v => { fl with important := v }

/-- A change dictionary (`changes` / `stateChanges`): per attribute,
`some true` = addition, `some false` = deletion, `none` = no change
since the previous sync (the source's `True` / `False` / `None`). -/
structure Changes where
  read : Option Bool
  important : Option Bool
deriving DecidableEq, Repr

def Changes.get (c : Changes) : MsgFlag → Option Bool
  | MsgFlag.read => c.read
  | MsgFlag.important => c.important

def Changes.set (c : Changes) : MsgFlag → Option Bool → Changes
  | MsgFlag.read, v => { c with read := v }
  | MsgFlag.important, v => { c with important := v }

/-- Contents of the class attribute `Message.DEFAULT_CHANGES` at class
creation time: `{'read': None, 'important': None}`. -/
def defaultChanges : Changes := { read := none, important := none }

/-- The heap of change dictionaries.  Index 0 is the single class-level
`Message.DEFAULT_CHANGES` object that every freshly constructed message
references. -/
structure Heap where
  dicts : List Changes
deriving DecidableEq, Repr

def Heap.get (h : Heap) (r : Nat) : Changes :=
  h.dicts.getD r defaultChanges

def Heap.set (h : Heap) (r : Nat) (c : Changes) : Heap :=
  ⟨h.dicts.set r c⟩

/-- The initial heap: only the `DEFAULT_CHANGES` class object exists. -/
def initHeap : Heap := ⟨[defaultChanges]⟩

/-- A `Message` object.  `changesRef` and `stateChangesRef` are the heap
references held by `self.changes` and `self.stateChanges`. -/
structure Message where
  uid : Nat
  body : String
  unkown : Bool
  flags : Flags
  changesRef : Nat
  stateChangesRef : Nat
deriving DecidableEq, Repr

/-- Constructor `Message(uid, body)`: `unkown = False`, `flags` all
false, and both `self.changes` and `self.stateChanges` are assigned the
class attribute `DEFAULT_CHANGES` itself — heap reference 0, shared by
every fresh message. -/
def Message.new (uid : Nat) (body : String) : Message :=
  { uid := uid
  , body := body
  , unkown := false
  , flags := { read := false, important := false }
  , changesRef := 0
  , stateChangesRef := 0 }

/-- Model of `copy.deepcopy` on one message: fresh dictionaries are
allocated for `changes` and `stateChanges`; `deepcopy`'s memo table
preserves aliasing, so if the two fields reference the same dictionary
the copy also holds one single fresh dictionary. -/
def Message.deepcopy (h : Heap) (m : Message) : Heap × Message :=
  if m.stateChangesRef = m.changesRef then
    let r := h.dicts.length
    (⟨h.dicts ++ [h.get m.changesRef]⟩,
     { m with changesRef := r, stateChangesRef := r })
  else
    let r1 := h.dicts.length
    let h1 : Heap := ⟨h.dicts ++ [h.get m.changesRef]⟩
    let r2 := h1.dicts.length
    (⟨h1.dicts ++ [h.get m.stateChangesRef]⟩,
     { m with changesRef := r1, stateChangesRef := r2 })

/-- Apply the non-`None` entries of a change dictionary to a flags
dictionary (`storageMessage.flags[flag] = self.changes[flag]`), in the
dict's iteration order `read`, `important`. -/
def Changes.applyTo (c : Changes) (fl : Flags) : Flags :=
  let fl1 := match c.read with
    | some v => { fl with read := v }
    | none => fl
  match c.important with
  | some v => { fl1 with important := v }
  | none => fl1

/-- `Message.fakeDriverWrites`: if the message is not new, write its
non-`None` `changes` entries into the storage message's flags; returns
the storage message's updated flags. -/
def Message.fakeDriverWrites (h : Heap) (self : Message) (storageFlags : Flags) : Flags :=
  if self.unkown = false then (h.get self.changesRef).applyTo storageFlags
  else storageFlags

/-- `Message.fakeStateWrites`: like `fakeDriverWrites` but additionally
applies `stateChanges` after `changes`. -/
def Message.fakeStateWrites (h : Heap) (self : Message) (storageFlags : Flags) : Flags :=
  if self.unkown = false then
    (h.get self.stateChangesRef).applyTo ((h.get self.changesRef).applyTo storageFlags)
  else storageFlags

/-- `Message.hasChanges`: the message is new or some `changes` entry is
not `None`. -/
def Message.hasChanges (h : Heap) (self : Message) : Bool :=
  if self.unkown = true then true
  else decide ((h.get self.changesRef).read ≠ none ∨
               (h.get self.changesRef).important ≠ none)

/-- `Message.identical` with its `assert message.uid == self.uid`:
`none` models the `AssertionError` (raised before anything is read or
written), `some b` the boolean flag comparison. -/
def Message.identical (self message : Message) : Option Bool :=
  if message.uid = self.uid then some (decide (message.flags = self.flags))
  else none

/-- `Message.learnChanges(stateMessage)`: for each flag where the state
message's value differs from ours, set `self.changes[flag]` to our
current value.  Iterates `stateMessage.getFlags().items()` in order
`read`, `important`; the write goes through the heap reference, so it
is visible to every holder of the same dictionary. -/
def Message.learnChanges (h : Heap) (self stateMessage : Message) : Heap :=
  let h1 :=
    if stateMessage.flags.read ≠ self.flags.read then
      h.set self.changesRef ((h.get self.changesRef).set MsgFlag.read (some self.flags.read))
    else h
  if stateMessage.flags.important ≠ self.flags.important then
    h1.set self.changesRef ((h1.get self.changesRef).set MsgFlag.important (some self.flags.important))
  else h1

/-- One iteration of the loop in `Message.merge`, for attribute `f`
whose value in the snapshot `otherChanges = deepcopy(message.getChanges())`
is `change`.  `current` is read from the live dictionary; on equality
the source performs, in order, `self.changes[flag] = None`,
`message.changes[flag] = None`, `self.stateChanges[flag] = current` —
three heap writes that interact when references coincide. -/
def Message.mergeFlag (self other : Message) (change : Option Bool) (f : MsgFlag) (h : Heap) : Heap :=
  let current := (h.get self.changesRef).get f
  if change ≠ none ∨ current ≠ none then
    if change = current then
      let h1 := h.set self.changesRef ((h.get self.changesRef).set f none)
      let h2 := h1.set other.changesRef ((h1.get other.changesRef).set f none)
      h2.set self.stateChangesRef ((h2.get self.stateChangesRef).set f current)
    else h
  else h

/-- `Message.merge(message)` with its `assert message.getUID() ==
self.uid`: `none` models the `AssertionError`, raised before any
mutation.  Otherwise the loop runs over the snapshot of the other
message's changes (dict order `read`, `important`) and only the heap is
mutated — no message field changes.  (The source's `ourChanges =
deepcopy(self.changes)` is assigned and never used.) -/
def Message.merge (h : Heap) (self other : Message) : Option Heap :=
  if other.uid = self.uid then
    let snap := h.get other.changesRef
    some (Message.mergeFlag self other (snap.get MsgFlag.important) MsgFlag.important
          (Message.mergeFlag self other (snap.get MsgFlag.read) MsgFlag.read h))
  else none

/-- Lookup in an insertion-ordered association list (Python `dict`). -/
def look (l : List (Nat × Message)) (k : Nat) : Option Message :=
  match l with
  | [] => none
  | p :: rest => if p.1 = k then some p.2 else look rest k

/-- Assignment `d[k] = v` on an insertion-ordered association list: an
existing key keeps its position, a fresh key is appended. -/
def dictSet (l : List (Nat × Message)) (k : Nat) (v : Message) : List (Nat × Message) :=
  if (look l k).isSome then
    l.map (fun p => if p.1 = k then (k, v) else p)
  else l ++ [(k, v)]

/-- `Messages.add(message)`: store `deepcopy(message)` under key
`message.uid`. -/
def Messages.add (h : Heap) (coll : List (Nat × Message)) (m : Message) :
    Heap × List (Nat × Message) :=
  let hc := Message.deepcopy h m
  (hc.1, dictSet coll m.uid hc.2)

/-- `Messages.merge(theirMessages)`: for every uid present in both
collections, run `self.data[uid].merge(theirMessage)`.  Only the heap
is mutated.  Inside collections the key equals the message's `uid`, so
the uid assertion in `Message.merge` always passes; the `getD h` branch
is unreachable there. -/
def Messages.merge (h : Heap) (ours theirs : List (Nat × Message)) : Heap :=
  theirs.foldl
    (fun hAcc kv =>
      match look ours kv.1 with
      | some ourM => (Message.merge hAcc ourM kv.2).getD hAcc
      | none => hAcc)
    h

/-- A fake driver (`Driver`): one side's replica store.  The
`FakeDriverWriteError` class attribute is per-instance once assigned,
which is how the demo uses it. -/
structure Driver where
  name : String
  fakeDriverWriteError : Bool
  data : List (Nat × Message)
deriving DecidableEq, Repr

/-- `Driver.fakeChange(message)`: external modification of a replica,
stores a deep copy. -/
def Driver.fakeChange (h : Heap) (d : Driver) (m : Message) : Heap × Driver :=
  let hc := Message.deepcopy h m
  (hc.1, { d with data := dictSet d.data m.uid hc.2 })

/-- `Driver.update(message)`: when the error flag is set, reset it and
raise `IOError` (success component `false`) before touching anything;
otherwise write the message's changes into the stored message's flags,
or — for an unseen uid — store the caller's message object itself
(`self.data[uid] = message`, no copy). -/
def Driver.update (h : Heap) (d : Driver) (m : Message) : Heap × Driver × Bool :=
  if d.fakeDriverWriteError = true then
    (h, { d with fakeDriverWriteError := false }, false)
  else
    match look d.data m.uid with
    | some storageMessage =>
        let fl := Message.fakeDriverWrites h m storageMessage.flags
        (h, { d with data := dictSet d.data m.uid { storageMessage with flags := fl } }, true)
    | none => (h, { d with data := dictSet d.data m.uid m }, true)

/-- The shared state storage (`StateStorage`). -/
structure StateStorage where
  data : List (Nat × Message)
deriving DecidableEq, Repr

/-- `StateStorage.update(message)`: write the message's changes and
state-only changes into the stored message's flags, or — for an unseen
uid — store the caller's message object itself (no copy). -/
def StateStorage.update (h : Heap) (s : StateStorage) (m : Message) : Heap × StateStorage :=
  match look s.data m.uid with
  | some storageMessage =>
      let fl := Message.fakeStateWrites h m storageMessage.flags
      (h, ⟨dictSet s.data m.uid { storageMessage with flags := fl }⟩)
  | none => (h, ⟨dictSet s.data m.uid m⟩)

/-- `StateController.update(theirMessages)`: for each incoming message
in insertion order, try the driver update; on success also update the
shared state; on `IOError` report and continue with the next message.
The caught error never escapes. -/
def StateController.update (h : Heap) (d : Driver) (st : StateStorage)
    (theirMessages : List (Nat × Message)) : Heap × Driver × StateStorage :=
  theirMessages.foldl
    (fun acc kv =>
      let hdu := Driver.update acc.1 acc.2.1 kv.2
      if hdu.2.2 = true then
        let hs := StateStorage.update hdu.1 acc.2.2 kv.2
        (hs.1, hdu.2.1, hs.2)
      else (hdu.1, hdu.2.1, acc.2.2))
    (h, d, st)

/-- `StateController.getChanges()`: walk the driver's live collection;
a message identical to its state copy is skipped; a differing one
learns its changes (a heap write through the live message's dictionary)
and a deep copy joins the result; a message unknown to the state is
marked `unkown` in place (write-back into the driver's data) and a deep
copy of the marked message joins the result.  Returns the heap, the
(mutated) driver and the collection of changed messages. -/
def StateController.getChanges (h : Heap) (d : Driver) (st : StateStorage) :
    Heap × Driver × List (Nat × Message) :=
  let z := d.data.foldl
    (fun (acc : Heap × List (Nat × Message) × List (Nat × Message)) kv =>
      match look st.data kv.1 with
      | some stateMessage =>
          if (Message.identical kv.2 stateMessage).getD false = true then acc
          else
            let h1 := Message.learnChanges acc.1 kv.2 stateMessage
            let hc := Messages.add h1 acc.2.2 kv.2
            (hc.1, acc.2.1, hc.2)
      | none =>
          let m1 := { kv.2 with unkown := true }
          let hc := Messages.add acc.1 acc.2.2 m1
          (hc.1, dictSet acc.2.1 kv.1 m1, hc.2))
    (h, d.data, [])
  (z.1, { d with data := z.2.1 }, z.2.2)

/-- The whole system: the dict heap, both replica drivers and the one
shared state storage (`Engine.__init__` hands the same `StateStorage`
to both controllers). -/
structure Sys where
  heap : Heap
  left : Driver
  right : Driver
  state : StateStorage
deriving DecidableEq, Repr

/-- `Engine.run()`: compute both sides' changes, merge left's
collection with right's (mutating both sides' dictionaries through the
heap), then apply right's changes to the left side and left's changes
to the right side, the shared state threading through both applies. -/
def Engine.run (s : Sys) : Sys :=
  let gl := StateController.getChanges s.heap s.left s.state
  let gr := StateController.getChanges gl.1 s.right s.state
  let h3 := Messages.merge gr.1 gl.2.2 gr.2.2
  let al := StateController.update h3 gl.2.1 s.state gr.2.2
  let ar := StateController.update al.1 gr.2.1 al.2.2 gl.2.2
  { heap := ar.1, left := al.2.1, right := ar.2.1, state := ar.2.2 }

/-! ### Concrete state families used to settle the whole-round claims.

Each family builds stores the way the program itself does: every stored
message's `changes` and `stateChanges` reference one shared dictionary
(the invariant `deepcopy` maintains), and distinct stored messages have
distinct dictionaries. -/

/-- A stored message whose two ledger fields reference the same heap
dictionary `r`, as every message that went through `deepcopy` does. -/
def mkMsg (u : Nat) (fl : Flags) (r : Nat) : Message :=
  { uid := u, body := "", unkown := false, flags := fl, changesRef := r, stateChangesRef := r }

/-- Reads the value of attribute `f` of the record stored under key `u`. -/
def flagAt (l : List (Nat × Message)) (u : Nat) (f : MsgFlag) : Option Bool :=
  (look l u).map (fun m => m.flags.get f)

/-- A system holding one record id `u` in both replicas and the shared
state, with clean (all-`Unchanged`) ledgers, no `unkown` marks and no
pending write error. -/
def cleanSys1 (u : Nat) (lf rf sf : Flags) : Sys :=
  { heap := ⟨[defaultChanges, ⟨none, none⟩, ⟨none, none⟩, ⟨none, none⟩]⟩
  , left := ⟨"left", false, [(u, mkMsg u lf 1)]⟩
  , right := ⟨"rght", false, [(u, mkMsg u rf 2)]⟩
  , state := ⟨[(u, mkMsg u sf 3)]⟩ }

/-- The two change collections computed by the round following `run()`
(the first two steps of a second `run()`). -/
def secondDeltas (s : Sys) : List (Nat × Message) × List (Nat × Message) :=
  let s1 := Engine.run s
  let gl := StateController.getChanges s1.heap s1.left s1.state
  let gr := StateController.getChanges gl.1 s1.right s1.state
  (gl.2.2, gr.2.2)

/-- A system holding one record id `u`, where exactly one attribute `f`
was flipped on exactly one replica (`side` true: left) since the last
sync; ledgers are clean and no error is pending. -/
def oneSideSys (u : Nat) (side : Bool) (sf : Flags) (f : MsgFlag) : Sys :=
  { heap := ⟨[defaultChanges, ⟨none, none⟩, ⟨none, none⟩, ⟨none, none⟩]⟩
  , left := ⟨"left", false, [(u, mkMsg u (if side then sf.set f (!(sf.get f)) else sf) 1)]⟩
  , right := ⟨"rght", false, [(u, mkMsg u (if side then sf else sf.set f (!(sf.get f))) 2)]⟩
  , state := ⟨[(u, mkMsg u sf 3)]⟩ }

/-- A system where one record id `u` exists on exactly one replica
(`side` true: left) and is absent from the Shared State Store and from
the other replica. -/
def newRecSys (u : Nat) (side : Bool) (fl : Flags) : Sys :=
  { heap := ⟨[defaultChanges, ⟨none, none⟩]⟩
  , left := ⟨"left", false, if side then [(u, mkMsg u fl 1)] else []⟩
  , right := ⟨"rght", false, if side then [] else [(u, mkMsg u fl 1)]⟩
  , state := ⟨[]⟩ }

/-- A reachable counterexample state for idempotence: a write error is
pending on the left driver while the right replica carries a drifted
record (the program's own demo reaches this shape in RUN 4/RUN 5). -/
def pendingErrSys : Sys :=
  { heap := ⟨[defaultChanges, ⟨none, none⟩, ⟨none, none⟩, ⟨none, none⟩]⟩
  , left := ⟨"left", true, [(1, mkMsg 1 ⟨false, false⟩ 1)]⟩
  , right := ⟨"rght", false, [(1, mkMsg 1 ⟨true, false⟩ 2)]⟩
  , state := ⟨[(1, mkMsg 1 ⟨false, false⟩ 3)]⟩ }

/-- The other attribute of the two-attribute schema. -/
def MsgFlag.other : MsgFlag → MsgFlag
  | MsgFlag.read => MsgFlag.important
  | MsgFlag.important => MsgFlag.read

/-- A reachable state with a genuinely divergent same-attribute
conflict: both replicas drifted from the state at the other attribute
(so both records enter the round's change sets), while their ledgers
carry stale, divergent entries `some x` / `some !x` at attribute `f` —
the shape left behind by earlier rounds, since no code path ever clears
a ledger. -/
def divergentSys (u : Nat) (sf : Flags) (f : MsgFlag) (x : Bool) : Sys :=
  { heap := ⟨[defaultChanges, defaultChanges.set f (some x),
              defaultChanges.set f (some (!x)), ⟨none, none⟩]⟩
  , left := ⟨"left", false, [(u, mkMsg u (sf.set f.other (!(sf.get f.other))) 1)]⟩
  , right := ⟨"rght", false, [(u, mkMsg u (sf.set f.other (!(sf.get f.other))) 2)]⟩
  , state := ⟨[(u, mkMsg u sf 3)]⟩ }

/-! ### Basic lemmas about the heap and the keyed collections -/

theorem getD_set_self (l : List Changes) (r : Nat) (c : Changes) (hr : r < l.length) :
    (l.set r c).getD r defaultChanges = c := by
  induction l generalizing r with
  | nil => simp at hr
  | cons x xs ih =>
      cases r with
      | zero => simp
      | succ n => simpa using ih n (by simpa using hr)

theorem getD_set_ne (l : List Changes) (r r' : Nat) (c : Changes) (hne : r ≠ r') :
    (l.set r c).getD r' defaultChanges = l.getD r' defaultChanges := by
  induction l generalizing r r' with
  | nil => simp
  | cons x xs ih =>
      cases r with
      | zero =>
          cases r' with
          | zero => exact absurd rfl hne
          | succ n' => simp
      | succ n =>
          cases r' with
          | zero => simp
          | succ n' => simpa using ih n n' (fun hc => hne (by simp [hc]))

theorem Heap.get_set_self (h : Heap) (r : Nat) (c : Changes) (hr : r < h.dicts.length) :
    (h.set r c).get r = c := by
  cases h with
  | mk d => exact getD_set_self d r c hr

theorem Heap.get_set_ne (h : Heap) (r r' : Nat) (c : Changes) (hne : r ≠ r') :
    (h.set r c).get r' = h.get r' := by
  cases h with
  | mk d => exact getD_set_ne d r r' c hne

theorem getD_append_len (l : List Changes) (c : Changes) :
    (l ++ [c]).getD l.length defaultChanges = c := by
  induction l with
  | nil => simp
  | cons x xs ih => simp [ih]

theorem getD_append_lt (l : List Changes) (c : Changes) (r : Nat) (hr : r < l.length) :
    (l ++ [c]).getD r defaultChanges = l.getD r defaultChanges := by
  induction l generalizing r with
  | nil => simp at hr
  | cons x xs ih =>
      cases r with
      | zero => simp
      | succ n => simpa using ih n (by simpa using hr)

theorem Heap.get_append_len (h : Heap) (c : Changes) :
    (⟨h.dicts ++ [c]⟩ : Heap).get h.dicts.length = c :=
  getD_append_len h.dicts c

theorem Heap.get_append_lt (h : Heap) (c : Changes) (r : Nat) (hr : r < h.dicts.length) :
    (⟨h.dicts ++ [c]⟩ : Heap).get r = h.get r :=
  getD_append_lt h.dicts c r hr

theorem look_nil (k : Nat) : look [] k = none := rfl

theorem look_cons (p : Nat × Message) (rest : List (Nat × Message)) (k : Nat) :
    look (p :: rest) k = if p.1 = k then some p.2 else look rest k := rfl

theorem look_single_hit (u : Nat) (m : Message) : look [(u, m)] u = some m := by
  simp [look]

theorem look_map_set_hit (l : List (Nat × Message)) (k : Nat) (v : Message)
    (hs : (look l k).isSome = true) :
    look (l.map (fun p => if p.1 = k then (k, v) else p)) k = some v := by
  induction l with
  | nil => simp [look] at hs
  | cons p rest ih =>
      by_cases hp : p.1 = k
      · simp [look, hp]
      · simp only [look, if_neg hp] at hs
        simp only [List.map_cons, if_neg hp, look, if_neg hp]
        exact ih hs

theorem look_map_set_ne (l : List (Nat × Message)) (k k' : Nat) (v : Message)
    (hne : k ≠ k') :
    look (l.map (fun p => if p.1 = k then (k, v) else p)) k' = look l k' := by
  induction l with
  | nil => simp
  | cons p rest ih =>
      by_cases hp : p.1 = k
      · simp only [List.map_cons, if_pos hp, look, if_neg hne, if_neg (hp ▸ hne)]
        exact ih
      · by_cases hp' : p.1 = k'
        · simp only [List.map_cons, if_neg hp, look, if_pos hp']
        · simp [look, hp, hp', ih]

theorem look_append_single_miss (l : List (Nat × Message)) (k : Nat) (v : Message)
    (hn : look l k = none) :
    look (l ++ [(k, v)]) k = some v := by
  induction l with
  | nil => simp [look]
  | cons p rest ih =>
      by_cases hp : p.1 = k
      · simp [look, hp] at hn
      · simp only [look, if_neg hp] at hn
        simpa [look, hp] using ih hn

theorem look_append_single_ne (l : List (Nat × Message)) (k k' : Nat) (v : Message)
    (hne : k ≠ k') :
    look (l ++ [(k, v)]) k' = look l k' := by
  induction l with
  | nil => simp [look, hne]
  | cons p rest ih =>
      by_cases hp' : p.1 = k'
      · simp [look, hp']
      · simp [look, hp', ih]

theorem look_dictSet_self (l : List (Nat × Message)) (k : Nat) (v : Message) :
    look (dictSet l k v) k = some v := by
  unfold dictSet
  by_cases hs : (look l k).isSome
  · simp only [hs, if_true]
    exact look_map_set_hit l k v hs
  · simp only [hs, Bool.false_eq_true, if_false]
    exact look_append_single_miss l k v (by
      cases hl : look l k with
      | none => rfl
      | some m => rw [hl] at hs ; simp at hs)

theorem look_dictSet_ne (l : List (Nat × Message)) (k k' : Nat) (v : Message) (hne : k ≠ k') :
    look (dictSet l k v) k' = look l k' := by
  unfold dictSet
  by_cases hs : (look l k).isSome
  · simp only [hs, if_true]
    exact look_map_set_ne l k k' v hne
  · simp only [hs, Bool.false_eq_true, if_false]
    exact look_append_single_ne l k k' v hne

theorem changesGet_set_self (c : Changes) (f : MsgFlag) (v : Option Bool) :
    (c.set f v).get f = v := by
  cases f <;> rfl

theorem changesGet_set_ne (c : Changes) (g f : MsgFlag) (v : Option Bool) (hgf : g ≠ f) :
    (c.set g v).get f = c.get f := by
  cases g <;> cases f <;> first | rfl | exact absurd rfl hgf

theorem Heap.length_set (h : Heap) (r : Nat) (c : Changes) :
    (h.set r c).dicts.length = h.dicts.length := by
  simp [Heap.set]

theorem listSet_oob (l : List Changes) (r : Nat) (c : Changes) (hr : l.length ≤ r) :
    l.set r c = l := by
  induction l generalizing r with
  | nil => rfl
  | cons x xs ih =>
      cases r with
      | zero => simp at hr
      | succ n => simp [List.set, ih n (by simpa using hr)]

theorem Heap.set_oob (h : Heap) (r : Nat) (c : Changes) (hr : h.dicts.length ≤ r) :
    h.set r c = h := by
  cases h with
  | mk d => simp [Heap.set, listSet_oob d r c hr]

/-- Writing `(h.get r').set g x` back at `r'` never changes any
dictionary's entry at a flag `f ≠ g`. -/
theorem Heap.get_set_other_flag (h : Heap) (r' r : Nat) (g : MsgFlag) (x : Option Bool)
    (f : MsgFlag) (hfg : g ≠ f) :
    ((h.set r' ((h.get r').set g x)).get r).get f = (h.get r).get f := by
  by_cases hr' : r' < h.dicts.length
  · by_cases he : r' = r
    · subst he
      rw [Heap.get_set_self h r' _ hr', changesGet_set_ne _ _ _ _ hfg]
    · rw [Heap.get_set_ne h r' r _ he]
  · rw [Heap.set_oob h r' _ (Nat.le_of_not_lt hr')]

/-- One `merge` loop iteration for flag `g` leaves every dictionary's
entry at any other flag `f` unchanged. -/
theorem mergeFlag_get_other (a b : Message) (ch : Option Bool) (g : MsgFlag) (h : Heap)
    (r : Nat) (f : MsgFlag) (hfg : g ≠ f) :
    ((Message.mergeFlag a b ch g h).get r).get f = (h.get r).get f := by
  simp only [Message.mergeFlag]
  split_ifs with h1 h2
  · rw [Heap.get_set_other_flag _ _ _ _ _ _ hfg, Heap.get_set_other_flag _ _ _ _ _ _ hfg,
        Heap.get_set_other_flag _ _ _ _ _ _ hfg]
  · rfl
  · rfl

theorem mergeFlag_length (a b : Message) (ch : Option Bool) (g : MsgFlag) (h : Heap) :
    (Message.mergeFlag a b ch g h).dicts.length = h.dicts.length := by
  simp only [Message.mergeFlag]
  split_ifs <;> simp [Heap.set]

/-- The dedup branch of one `merge` loop iteration: when both sides
carry the same non-`None` change at flag `f`, and the self side's
`changes` and `stateChanges` are the same dictionary (as the source
guarantees) distinct from the other side's, the iteration clears the
other side's entry but — through the shared dictionary — ends with the
self side's entry re-set to the value. -/
theorem mergeFlag_dedup (a b : Message) (f : MsgFlag) (v : Bool) (h : Heap)
    (halias : a.stateChangesRef = a.changesRef)
    (hne : b.changesRef ≠ a.changesRef)
    (ha : a.changesRef < h.dicts.length) (hb : b.changesRef < h.dicts.length)
    (hav : (h.get a.changesRef).get f = some v) :
    ((Message.mergeFlag a b (some v) f h).get a.changesRef).get f = some v ∧
    ((Message.mergeFlag a b (some v) f h).get b.changesRef).get f = none := by
  simp only [Message.mergeFlag]
  rw [hav, halias]
  have hcond : (some v ≠ (none : Option Bool)) ∨ (some v ≠ (none : Option Bool)) := by
    exact Or.inl (by simp)
  rw [if_pos hcond, if_pos rfl]
  have hlen1 : (h.set a.changesRef ((h.get a.changesRef).set f none)).dicts.length
      = h.dicts.length := Heap.length_set h _ _
  have hlen2 : ((h.set a.changesRef ((h.get a.changesRef).set f none)).set b.changesRef
      (((h.set a.changesRef ((h.get a.changesRef).set f none)).get b.changesRef).set f none)).dicts.length
      = h.dicts.length := by rw [Heap.length_set, hlen1]
  constructor
  · rw [Heap.get_set_self _ a.changesRef _ (by rw [hlen2] ; exact ha), changesGet_set_self]
  · rw [Heap.get_set_ne _ a.changesRef b.changesRef _ (fun hc => hne hc.symm),
        Heap.get_set_self _ b.changesRef _ (by rw [hlen1] ; exact hb), changesGet_set_self]

theorem dictSet_nil (u : Nat) (v : Message) : dictSet [] u v = [(u, v)] := rfl

theorem dictSet_single_hit (u : Nat) (m v : Message) : dictSet [(u, m)] u v = [(u, v)] := by
  simp [dictSet, look]

/-! ### Unfolding lemmas for the controller phases on small stores -/

theorem SC_getChanges_nil_driver (h : Heap) (n : String) (e : Bool) (st : StateStorage) :
    StateController.getChanges h ⟨n, e, []⟩ st = (h, ⟨n, e, []⟩, []) := rfl

theorem SC_getChanges_single_present (h : Heap) (n : String) (e : Bool) (u : Nat)
    (m sm : Message) (hm : m.uid = u) (hsm : sm.uid = u) :
    StateController.getChanges h ⟨n, e, [(u, m)]⟩ ⟨[(u, sm)]⟩ =
      if sm.flags = m.flags then (h, ⟨n, e, [(u, m)]⟩, [])
      else
        ((Messages.add (Message.learnChanges h m sm) [] m).1, ⟨n, e, [(u, m)]⟩,
         (Messages.add (Message.learnChanges h m sm) [] m).2) := by
  simp only [StateController.getChanges, List.foldl_cons, List.foldl_nil, look_single_hit,
    Message.identical, hm, hsm, if_pos rfl]
  by_cases hf : sm.flags = m.flags
  · simp [hf]
  · simp [hf]

theorem SC_getChanges_single_absent (h : Heap) (n : String) (e : Bool) (u : Nat)
    (m : Message) :
    StateController.getChanges h ⟨n, e, [(u, m)]⟩ ⟨[]⟩ =
      ((Messages.add h [] { m with unkown := true }).1,
       ⟨n, e, [(u, { m with unkown := true })]⟩,
       (Messages.add h [] { m with unkown := true }).2) := by
  simp only [StateController.getChanges, List.foldl_cons, List.foldl_nil, look_nil,
    Messages.add, dictSet_single_hit, dictSet_nil]

theorem Messages.merge_nil_theirs (h : Heap) (ours : List (Nat × Message)) :
    Messages.merge h ours [] = h := rfl

theorem Messages.merge_nil_ours (h : Heap) (theirs : List (Nat × Message)) :
    Messages.merge h [] theirs = h := by
  induction theirs generalizing h with
  | nil => rfl
  | cons p rest ih =>
      simp only [Messages.merge, List.foldl_cons, look_nil] at ih ⊢
      exact ih h

theorem Messages.merge_single_single (h : Heap) (u : Nat) (a b : Message) :
    Messages.merge h [(u, a)] [(u, b)] = (Message.merge h a b).getD h := by
  simp only [Messages.merge, List.foldl_cons, List.foldl_nil, look_single_hit]

theorem Message.merge_same_uid (h : Heap) (a b : Message) (hba : b.uid = a.uid) :
    Message.merge h a b =
      some (Message.mergeFlag a b ((h.get b.changesRef).get MsgFlag.important) MsgFlag.important
            (Message.mergeFlag a b ((h.get b.changesRef).get MsgFlag.read) MsgFlag.read h)) := by
  simp [Message.merge, hba]

theorem SC_update_nil (h : Heap) (d : Driver) (st : StateStorage) :
    StateController.update h d st [] = (h, d, st) := rfl

theorem SC_update_cons_ok (h : Heap) (d : Driver) (st : StateStorage) (p : Nat × Message)
    (rest : List (Nat × Message)) (hok : (Driver.update h d p.2).2.2 = true) :
    StateController.update h d st (p :: rest) =
      StateController.update (StateStorage.update (Driver.update h d p.2).1 st p.2).1
        (Driver.update h d p.2).2.1
        (StateStorage.update (Driver.update h d p.2).1 st p.2).2 rest := by
  simp [StateController.update, List.foldl_cons, hok]

theorem SC_update_cons_fail (h : Heap) (d : Driver) (st : StateStorage) (p : Nat × Message)
    (rest : List (Nat × Message)) (hfail : (Driver.update h d p.2).2.2 = false) :
    StateController.update h d st (p :: rest) =
      StateController.update (Driver.update h d p.2).1 (Driver.update h d p.2).2.1 st rest := by
  simp [StateController.update, List.foldl_cons, hfail]

theorem driver_update_err (h : Heap) (d : Driver) (m : Message)
    (hd : d.fakeDriverWriteError = true) :
    Driver.update h d m = (h, { d with fakeDriverWriteError := false }, false) := by
  simp [Driver.update, hd]

theorem driver_update_hit (h : Heap) (d : Driver) (m sm : Message)
    (hd : d.fakeDriverWriteError = false) (hs : look d.data m.uid = some sm) :
    Driver.update h d m =
      (h,
       { d with data :=
           dictSet d.data m.uid ({ sm with flags := Message.fakeDriverWrites h m sm.flags }) },
       true) := by
  simp [Driver.update, hd, hs]

theorem driver_update_miss (h : Heap) (d : Driver) (m : Message)
    (hd : d.fakeDriverWriteError = false) (hn : look d.data m.uid = none) :
    Driver.update h d m = (h, { d with data := dictSet d.data m.uid m }, true) := by
  simp [Driver.update, hd, hn]

theorem state_update_hit (h : Heap) (st : StateStorage) (m sm : Message)
    (hs : look st.data m.uid = some sm) :
    StateStorage.update h st m =
      (h,
       ⟨dictSet st.data m.uid ({ sm with flags := Message.fakeStateWrites h m sm.flags })⟩) := by
  simp [StateStorage.update, hs]

theorem state_update_miss (h : Heap) (st : StateStorage) (m : Message)
    (hn : look st.data m.uid = none) :
    StateStorage.update h st m = (h, ⟨dictSet st.data m.uid m⟩) := by
  simp [StateStorage.update, hn]

/-- Applying a batch never touches a driver or shared-state entry whose
key is distinct from every incoming message's uid. -/
theorem SC_update_look_preserved (batch : List (Nat × Message)) (h : Heap) (d : Driver)
    (st : StateStorage) (u : Nat) (hu : ∀ p ∈ batch, p.2.uid ≠ u) :
    look (StateController.update h d st batch).2.1.data u = look d.data u ∧
    look (StateController.update h d st batch).2.2.data u = look st.data u := by
  induction batch generalizing h d st with
  | nil => exact ⟨rfl, rfl⟩
  | cons p rest ih =>
      have hp : p.2.uid ≠ u := hu p (List.mem_cons_self p rest)
      have hrest : ∀ q ∈ rest, q.2.uid ≠ u := fun q hq => hu q (List.mem_cons_of_mem p hq)
      by_cases herr : d.fakeDriverWriteError = true
      · have hdu := driver_update_err h d p.2 herr
        have hfail : (Driver.update h d p.2).2.2 = false := by rw [hdu]
        rw [SC_update_cons_fail h d st p rest hfail, hdu]
        exact ih _ _ _ hrest
      · have hd : d.fakeDriverWriteError = false := by
          cases hde : d.fakeDriverWriteError with
          | true => exact absurd hde herr
          | false => rfl
        cases hls : look d.data p.2.uid with
        | some sm =>
            have hdu := driver_update_hit h d p.2 sm hd hls
            have hok : (Driver.update h d p.2).2.2 = true := by rw [hdu]
            rw [SC_update_cons_ok h d st p rest hok, hdu]
            dsimp only
            cases hss : look st.data p.2.uid with
            | some ssm =>
                rw [state_update_hit _ _ _ _ hss]
                dsimp only
                have := ih h ({ d with data := dictSet d.data p.2.uid ({ sm with flags := Message.fakeDriverWrites h p.2 sm.flags }) }) ⟨dictSet st.data p.2.uid ({ ssm with flags := Message.fakeStateWrites h p.2 ssm.flags })⟩ hrest
                rw [this.1, this.2]
                exact ⟨look_dictSet_ne _ _ _ _ hp, look_dictSet_ne _ _ _ _ hp⟩
            | none =>
                rw [state_update_miss _ _ _ hss]
                dsimp only
                have := ih h ({ d with data := dictSet d.data p.2.uid ({ sm with flags := Message.fakeDriverWrites h p.2 sm.flags }) }) ⟨dictSet st.data p.2.uid p.2⟩ hrest
                rw [this.1, this.2]
                exact ⟨look_dictSet_ne _ _ _ _ hp, look_dictSet_ne _ _ _ _ hp⟩
        | none =>
            have hdu := driver_update_miss h d p.2 hd hls
            have hok : (Driver.update h d p.2).2.2 = true := by rw [hdu]
            rw [SC_update_cons_ok h d st p rest hok, hdu]
            dsimp only
            cases hss : look st.data p.2.uid with
            | some ssm =>
                rw [state_update_hit _ _ _ _ hss]
                dsimp only
                have := ih h ({ d with data := dictSet d.data p.2.uid p.2 }) ⟨dictSet st.data p.2.uid ({ ssm with flags := Message.fakeStateWrites h p.2 ssm.flags })⟩ hrest
                rw [this.1, this.2]
                exact ⟨look_dictSet_ne _ _ _ _ hp, look_dictSet_ne _ _ _ _ hp⟩
            | none =>
                rw [state_update_miss _ _ _ hss]
                dsimp only
                have := ih h ({ d with data := dictSet d.data p.2.uid p.2 }) ⟨dictSet st.data p.2.uid p.2⟩ hrest
                rw [this.1, this.2]
                exact ⟨look_dictSet_ne _ _ _ _ hp, look_dictSet_ne _ _ _ _ hp⟩

/-- One `merge` loop iteration is a no-op when the two sides carry
different values at the flag (`change != current`). -/
theorem mergeFlag_keep (a b : Message) (f : MsgFlag) (x y : Bool) (h : Heap)
    (hcur : (h.get a.changesRef).get f = some x) (hxy : (some y : Option Bool) ≠ some x) :
    Message.mergeFlag a b (some y) f h = h := by
  simp only [Message.mergeFlag, hcur]
  rw [if_pos (Or.inl (by simp)), if_neg hxy]

theorem driver_update_heap (h : Heap) (d : Driver) (m : Message) :
    (Driver.update h d m).1 = h := by
  by_cases hd : d.fakeDriverWriteError = true
  · simp [Driver.update, hd]
  · cases hls : look d.data m.uid <;> simp [Driver.update, hd, hls]

theorem state_update_heap (h : Heap) (st : StateStorage) (m : Message) :
    (StateStorage.update h st m).1 = h := by
  cases hls : look st.data m.uid <;> simp [StateStorage.update, hls]

/-! ### The claims -/

/-- C1, counterexample.  Both sides changed `read` to the same value
`True` for record id 1.  After `RecordSet.mergeWith`
(`Messages.merge`), the other side's `changes['read']` is cleared and
the value is recorded in the self side's `stateChanges['read']` — but
the self side's `changes['read']` still carries `True`: `changes` and
`stateChanges` are the same dictionary, so the final
`self.stateChanges[flag] = current` write re-instates the entry that
`self.changes[flag] = None` had just cleared.  The claim demands that
neither side's `changes` ledger keeps the attribute. -/
theorem C1_counterexample :
    ((Messages.merge ⟨[defaultChanges, ⟨some true, none⟩, ⟨some true, none⟩]⟩
        [(1, mkMsg 1 ⟨true, false⟩ 1)] [(1, mkMsg 1 ⟨true, false⟩ 2)]).get 1).get MsgFlag.read
      = some true ∧
    ((Messages.merge ⟨[defaultChanges, ⟨some true, none⟩, ⟨some true, none⟩]⟩
        [(1, mkMsg 1 ⟨true, false⟩ 1)] [(1, mkMsg 1 ⟨true, false⟩ 2)]).get 2).get MsgFlag.read
      = none := by decide

/-- C1, amended.  When both sides' records carry the same non-`Unchanged`
value for the same attribute, `mergeWith` clears the attribute from the
other side's `changes` ledger and records the value in the self side's
`stateOnlyChanges` ledger; but because the self side's `changes` and
`stateOnlyChanges` are one shared dictionary, the self side's `changes`
ledger ends up still carrying the value (it is not cleared). -/
theorem C1_merge_dedup_amended (h : Heap) (a b : Message) (f : MsgFlag) (v : Bool)
    (huid : b.uid = a.uid) (halias : a.stateChangesRef = a.changesRef)
    (hne : b.changesRef ≠ a.changesRef)
    (ha : a.changesRef < h.dicts.length) (hb : b.changesRef < h.dicts.length)
    (hav : (h.get a.changesRef).get f = some v)
    (hbv : (h.get b.changesRef).get f = some v) :
    ((Messages.merge h [(a.uid, a)] [(a.uid, b)]).get b.changesRef).get f = none ∧
    ((Messages.merge h [(a.uid, a)] [(a.uid, b)]).get a.stateChangesRef).get f = some v ∧
    ((Messages.merge h [(a.uid, a)] [(a.uid, b)]).get a.changesRef).get f = some v := by
  rw [Messages.merge_single_single, Message.merge_same_uid h a b huid, Option.getD_some]
  cases f with
  | read =>
      rw [hbv]
      have hin := mergeFlag_dedup a b MsgFlag.read v h halias hne ha hb hav
      refine ⟨?_, ?_, ?_⟩
      · rw [mergeFlag_get_other a b _ MsgFlag.important _ b.changesRef MsgFlag.read (by decide)]
        exact hin.2
      · rw [halias,
          mergeFlag_get_other a b _ MsgFlag.important _ a.changesRef MsgFlag.read (by decide)]
        exact hin.1
      · rw [mergeFlag_get_other a b _ MsgFlag.important _ a.changesRef MsgFlag.read (by decide)]
        exact hin.1
  | important =>
      rw [hbv]
      have hlen : (Message.mergeFlag a b ((h.get b.changesRef).get MsgFlag.read) MsgFlag.read
          h).dicts.length = h.dicts.length := mergeFlag_length a b _ MsgFlag.read h
      have hav' : ((Message.mergeFlag a b ((h.get b.changesRef).get MsgFlag.read) MsgFlag.read
          h).get a.changesRef).get MsgFlag.important = some v := by
        rw [mergeFlag_get_other a b _ MsgFlag.read h a.changesRef MsgFlag.important (by decide)]
        exact hav
      have hin := mergeFlag_dedup a b MsgFlag.important v
        (Message.mergeFlag a b ((h.get b.changesRef).get MsgFlag.read) MsgFlag.read h)
        halias hne (by rw [hlen] ; exact ha) (by rw [hlen] ; exact hb) hav'
      exact ⟨hin.2, by rw [halias] ; exact hin.1, hin.1⟩

/-- C1, witness for the amended theorem at a concrete input. -/
theorem C1_merge_dedup_amended_witness :
    ((Messages.merge ⟨[defaultChanges, ⟨some true, none⟩, ⟨some true, none⟩]⟩
        [(1, mkMsg 1 ⟨true, false⟩ 1)] [(1, mkMsg 1 ⟨true, false⟩ 2)]).get 2).get MsgFlag.read
      = none ∧
    ((Messages.merge ⟨[defaultChanges, ⟨some true, none⟩, ⟨some true, none⟩]⟩
        [(1, mkMsg 1 ⟨true, false⟩ 1)] [(1, mkMsg 1 ⟨true, false⟩ 2)]).get 1).get MsgFlag.read
      = some true ∧
    ((Messages.merge ⟨[defaultChanges, ⟨some true, none⟩, ⟨some true, none⟩]⟩
        [(1, mkMsg 1 ⟨true, false⟩ 1)] [(1, mkMsg 1 ⟨true, false⟩ 2)]).get 1).get MsgFlag.read
      = some true :=
  C1_merge_dedup_amended ⟨[defaultChanges, ⟨some true, none⟩, ⟨some true, none⟩]⟩
    (mkMsg 1 ⟨true, false⟩ 1) (mkMsg 1 ⟨true, false⟩ 2) MsgFlag.read true
    (by decide) (by decide) (by decide) (by decide) (by decide) (by decide) (by decide)

/-- C2.  If a transient write error is pending on the replica driver,
the first record of the incoming batch fails: its entry in the Replica
Store and in the Shared State Store is untouched, and the whole apply
equals processing the remaining batch with the error consumed — so
every remaining record is still processed and (the `except IOError`
handler having caught the error by construction of the model) nothing
propagates out of `apply`. -/
theorem C2_partial_failure (h : Heap) (d : Driver) (st : StateStorage)
    (p : Nat × Message) (rest : List (Nat × Message))
    (herr : d.fakeDriverWriteError = true)
    (hrest : ∀ q ∈ rest, q.2.uid ≠ p.2.uid) :
    look (StateController.update h d st (p :: rest)).2.1.data p.2.uid = look d.data p.2.uid ∧
    look (StateController.update h d st (p :: rest)).2.2.data p.2.uid = look st.data p.2.uid ∧
    StateController.update h d st (p :: rest) =
      StateController.update h ({ d with fakeDriverWriteError := false }) st rest := by
  have hdu := driver_update_err h d p.2 herr
  have hfail : (Driver.update h d p.2).2.2 = false := by rw [hdu]
  have hcont : StateController.update h d st (p :: rest) =
      StateController.update h ({ d with fakeDriverWriteError := false }) st rest := by
    rw [SC_update_cons_fail h d st p rest hfail, hdu]
  have hpres := SC_update_look_preserved rest h ({ d with fakeDriverWriteError := false }) st
    p.2.uid hrest
  exact ⟨by rw [hcont, hpres.1], by rw [hcont, hpres.2], hcont⟩

/-- C2, witness at a concrete input: singleton batch, pending error. -/
theorem C2_partial_failure_witness :
    look (StateController.update initHeap ⟨"left", true, [(1, mkMsg 1 ⟨false, false⟩ 0)]⟩ ⟨[]⟩
        [(1, mkMsg 1 ⟨true, false⟩ 0)]).2.1.data (mkMsg 1 ⟨true, false⟩ 0).uid
      = look [(1, mkMsg 1 ⟨false, false⟩ 0)] (mkMsg 1 ⟨true, false⟩ 0).uid ∧
    look (StateController.update initHeap ⟨"left", true, [(1, mkMsg 1 ⟨false, false⟩ 0)]⟩ ⟨[]⟩
        [(1, mkMsg 1 ⟨true, false⟩ 0)]).2.2.data (mkMsg 1 ⟨true, false⟩ 0).uid
      = look ([] : List (Nat × Message)) (mkMsg 1 ⟨true, false⟩ 0).uid ∧
    StateController.update initHeap ⟨"left", true, [(1, mkMsg 1 ⟨false, false⟩ 0)]⟩ ⟨[]⟩
        [(1, mkMsg 1 ⟨true, false⟩ 0)]
      = StateController.update initHeap ⟨"left", false, [(1, mkMsg 1 ⟨false, false⟩ 0)]⟩ ⟨[]⟩ [] :=
  C2_partial_failure initHeap ⟨"left", true, [(1, mkMsg 1 ⟨false, false⟩ 0)]⟩ ⟨[]⟩
    (1, mkMsg 1 ⟨true, false⟩ 0) [] rfl (by simp)

/-- C3, counterexample.  The claim quantifies over every system state;
from `pendingErrSys` (reachable: the demo's RUN 4 sets
`left.FakeDriverWriteError = True` before running) the first `run()`
consumes the fake error, leaves the left replica and the shared state
untouched for the drifted record, and the second round's
`getChanges` is therefore not empty on both sides — by design, this is
the retry-by-reconvergence behaviour. -/
theorem C3_counterexample : secondDeltas pendingErrSys ≠ ([], []) := by decide

set_option maxHeartbeats 6400000 in
/-- C3, amended.  Running `run()` twice in succession with no external
change in between yields empty second-round deltas on both sides,
provided no replica write error is pending, the stores' records carry
all-`Unchanged` ledgers and no `unkown` mark, and the record id is
known to the Shared State Store.  Stated for stores holding one common
record id `u` with arbitrary attribute values on all three stores. -/
theorem C3_second_round_empty_amended (u : Nat) (a b c d e f : Bool) :
    secondDeltas (cleanSys1 u ⟨a, b⟩ ⟨c, d⟩ ⟨e, f⟩) = ([], []) := by
  cases a <;> cases b <;> cases c <;> cases d <;> cases e <;> cases f <;>
  simp [secondDeltas, cleanSys1, mkMsg, Engine.run,
    SC_getChanges_single_present, Messages.add, Message.learnChanges, Message.deepcopy,
    Messages.merge_single_single, Messages.merge_nil_ours, Messages.merge_nil_theirs,
    Message.merge_same_uid, Message.mergeFlag,
    StateController.update, List.foldl_cons, List.foldl_nil, Driver.update,
    StateStorage.update, Message.fakeDriverWrites, Message.fakeStateWrites,
    Changes.applyTo, Heap.get, Heap.set, Changes.get, Changes.set, Flags.get, Flags.set,
    look_single_hit, look_nil, dictSet_single_hit, dictSet_nil, defaultChanges]

set_option maxHeartbeats 6400000 in
/-- C4.  If exactly one attribute `f` of the record `u` known to the
Shared State Store is flipped on exactly one replica since the last
sync, one `run()` makes both Replica Stores and the Shared State Store
hold the flipped value of `f` for `u`. -/
theorem C4_one_sided_change_converges (u : Nat) (side : Bool) (a b : Bool) (f : MsgFlag) :
    flagAt (Engine.run (oneSideSys u side ⟨a, b⟩ f)).left.data u f
        = some (!(Flags.get ⟨a, b⟩ f)) ∧
    flagAt (Engine.run (oneSideSys u side ⟨a, b⟩ f)).right.data u f
        = some (!(Flags.get ⟨a, b⟩ f)) ∧
    flagAt (Engine.run (oneSideSys u side ⟨a, b⟩ f)).state.data u f
        = some (!(Flags.get ⟨a, b⟩ f)) := by
  cases side <;> cases a <;> cases b <;> cases f <;>
  simp [oneSideSys, mkMsg, flagAt, Engine.run,
    SC_getChanges_single_present, Messages.add, Message.learnChanges, Message.deepcopy,
    Messages.merge_single_single, Messages.merge_nil_ours, Messages.merge_nil_theirs,
    Message.merge_same_uid, Message.mergeFlag,
    StateController.update, List.foldl_cons, List.foldl_nil, Driver.update,
    StateStorage.update, Message.fakeDriverWrites, Message.fakeStateWrites,
    Changes.applyTo, Heap.get, Heap.set, Changes.get, Changes.set, Flags.get, Flags.set,
    look_single_hit, look_nil, dictSet_single_hit, dictSet_nil, defaultChanges]

/-- C5, counterexample.  `Driver.update` on an unseen uid executes
`self.data[uid] = message`: the stored entry IS the caller's record (same
dictionary references, no copy), and a later write through the caller's
`changes` dictionary is visible through the stored record's dictionary.
The claim demands a deep, independent copy on insertion into a Replica
Store. -/
theorem C5_counterexample :
    look (Driver.update ⟨[defaultChanges, ⟨some true, none⟩]⟩ ⟨"left", false, []⟩
        (mkMsg 1 ⟨false, false⟩ 1)).2.1.data 1 = some (mkMsg 1 ⟨false, false⟩ 1) ∧
    ((Driver.update ⟨[defaultChanges, ⟨some true, none⟩]⟩ ⟨"left", false, []⟩
        (mkMsg 1 ⟨false, false⟩ 1)).1.set (mkMsg 1 ⟨false, false⟩ 1).changesRef
        ⟨some false, some false⟩).get (mkMsg 1 ⟨false, false⟩ 1).changesRef
      = ⟨some false, some false⟩ := by decide

/-- C5, amended.  `RecordSet` insertion (`Messages.add`) does store a
deep, independent copy: the stored record references a freshly
allocated dictionary holding the same contents, and later writes
through the source record's dictionary do not alter the copy's.  But
`Driver.update` and `StateStorage.update` insert the caller's record
itself for unseen uids — the stored entry is the very record, aliased
with the caller's. -/
theorem C5_insert_isolation_amended :
    (∀ (h : Heap) (coll : List (Nat × Message)) (m : Message),
      m.stateChangesRef = m.changesRef → m.changesRef < h.dicts.length →
      look (Messages.add h coll m).2 m.uid =
        some { m with changesRef := h.dicts.length, stateChangesRef := h.dicts.length } ∧
      (Messages.add h coll m).1.get h.dicts.length = h.get m.changesRef ∧
      h.dicts.length ≠ m.changesRef ∧
      (∀ c : Changes, ((Messages.add h coll m).1.set m.changesRef c).get h.dicts.length =
        (Messages.add h coll m).1.get h.dicts.length)) ∧
    (∀ (h : Heap) (d : Driver) (m : Message), d.fakeDriverWriteError = false →
      look d.data m.uid = none → look (Driver.update h d m).2.1.data m.uid = some m) ∧
    (∀ (h : Heap) (st : StateStorage) (m : Message),
      look st.data m.uid = none → look (StateStorage.update h st m).2.data m.uid = some m) := by
  refine ⟨fun h coll m halias hlt => ?_, fun h d m hd hn => ?_, fun h st m hn => ?_⟩
  · simp only [Messages.add, Message.deepcopy, if_pos halias]
    refine ⟨look_dictSet_self coll m.uid _, Heap.get_append_len h _, by omega, fun c => ?_⟩
    exact Heap.get_set_ne _ m.changesRef h.dicts.length c (by omega)
  · simp [Driver.update, hd, hn, look_dictSet_self]
  · simp [StateStorage.update, hn, look_dictSet_self]

/-- C5, witness for the amended theorem at concrete inputs. -/
theorem C5_insert_isolation_amended_witness :
    look (Messages.add initHeap [] (mkMsg 5 ⟨false, false⟩ 0)).2 (mkMsg 5 ⟨false, false⟩ 0).uid
      = some { (mkMsg 5 ⟨false, false⟩ 0) with changesRef := initHeap.dicts.length, stateChangesRef := initHeap.dicts.length } ∧
    look (Driver.update initHeap ⟨"left", false, []⟩ (mkMsg 3 ⟨true, false⟩ 0)).2.1.data
        (mkMsg 3 ⟨true, false⟩ 0).uid = some (mkMsg 3 ⟨true, false⟩ 0) ∧
    look (StateStorage.update initHeap ⟨[]⟩ (mkMsg 3 ⟨true, false⟩ 0)).2.data
        (mkMsg 3 ⟨true, false⟩ 0).uid = some (mkMsg 3 ⟨true, false⟩ 0) :=
  ⟨(C5_insert_isolation_amended.1 initHeap [] (mkMsg 5 ⟨false, false⟩ 0) rfl (by decide)).1,
   C5_insert_isolation_amended.2.1 initHeap ⟨"left", false, []⟩ (mkMsg 3 ⟨true, false⟩ 0)
     rfl (by decide),
   C5_insert_isolation_amended.2.2 initHeap ⟨[]⟩ (mkMsg 3 ⟨true, false⟩ 0) (by decide)⟩

/-- C6, counterexample.  A record (id 1, flags `{read: true}`) present
only in the left replica and absent from the Shared State Store is NOT
propagated with equal attributes when the right replica also happens to
hold id 1 (also new to the state) with different flags: both records
are marked new, `fakeDriverWrites` skips new messages, and the right
replica keeps its own flags. -/
theorem C6_counterexample :
    (look (Engine.run
        { heap := ⟨[defaultChanges, ⟨none, none⟩, ⟨none, none⟩]⟩
        , left := ⟨"left", false, [(1, mkMsg 1 ⟨true, false⟩ 1)]⟩
        , right := ⟨"rght", false, [(1, mkMsg 1 ⟨false, false⟩ 2)]⟩
        , state := ⟨[]⟩ }).right.data 1).map Message.flags = some ⟨false, false⟩ ∧
    some (⟨false, false⟩ : Flags) ≠ some (⟨true, false⟩ : Flags) := by decide

set_option maxHeartbeats 6400000 in
/-- C6, amended.  A record present in one Replica Store, absent from
the Shared State Store and from the other Replica Store, is after one
`run()` present with identical attributes in the other Replica Store
and in the Shared State Store. -/
theorem C6_new_record_propagation_amended (u : Nat) (side : Bool) (a b : Bool) :
    (look (Engine.run (newRecSys u side ⟨a, b⟩)).left.data u).map Message.flags
        = some ⟨a, b⟩ ∧
    (look (Engine.run (newRecSys u side ⟨a, b⟩)).right.data u).map Message.flags
        = some ⟨a, b⟩ ∧
    (look (Engine.run (newRecSys u side ⟨a, b⟩)).state.data u).map Message.flags
        = some ⟨a, b⟩ := by
  cases side <;> cases a <;> cases b <;>
  simp [newRecSys, mkMsg, Engine.run,
    SC_getChanges_single_absent, SC_getChanges_nil_driver, Messages.add, Message.deepcopy,
    Messages.merge_single_single, Messages.merge_nil_ours, Messages.merge_nil_theirs,
    StateController.update, List.foldl_cons, List.foldl_nil, Driver.update,
    StateStorage.update, Message.fakeDriverWrites, Message.fakeStateWrites,
    Changes.applyTo, Heap.get, Heap.set, Changes.get, Changes.set, Flags.get, Flags.set,
    look_single_hit, look_nil, dictSet_single_hit, dictSet_nil, defaultChanges]

set_option maxHeartbeats 6400000 in
/-- C7.  First part: when the same attribute carries different
non-`Unchanged` values in the two records' change ledgers,
`RecordSet.mergeWith` leaves both entries exactly as computed.  Second
part: from a state whose computed deltas diverge at attribute `f`
(ledger values `some x` on the left, `some !x` on the right), one
`run()` leaves each replica holding the other side's conflicting value
for `f`. -/
theorem C7_divergent_conflict_passthrough :
    (∀ (h : Heap) (a b : Message) (f : MsgFlag) (x y : Bool),
      b.uid = a.uid → a.stateChangesRef = a.changesRef → b.changesRef ≠ a.changesRef →
      a.changesRef < h.dicts.length → b.changesRef < h.dicts.length →
      (h.get a.changesRef).get f = some x → (h.get b.changesRef).get f = some y → x ≠ y →
      ((Messages.merge h [(a.uid, a)] [(a.uid, b)]).get a.changesRef).get f = some x ∧
      ((Messages.merge h [(a.uid, a)] [(a.uid, b)]).get b.changesRef).get f = some y) ∧
    (∀ (u : Nat) (sa sb x : Bool) (f : MsgFlag),
      flagAt (Engine.run (divergentSys u ⟨sa, sb⟩ f x)).left.data u f = some (!x) ∧
      flagAt (Engine.run (divergentSys u ⟨sa, sb⟩ f x)).right.data u f = some x) := by
  constructor
  · intro h a b f x y huid halias hne ha hb hav hbv hxy
    rw [Messages.merge_single_single, Message.merge_same_uid h a b huid, Option.getD_some]
    cases f with
    | read =>
        rw [hbv]
        rw [mergeFlag_keep a b MsgFlag.read x y h hav
          (fun hc => hxy (Option.some.inj hc).symm)]
        constructor
        · rw [mergeFlag_get_other a b _ MsgFlag.important h a.changesRef MsgFlag.read (by decide)]
          exact hav
        · rw [mergeFlag_get_other a b _ MsgFlag.important h b.changesRef MsgFlag.read (by decide)]
          exact hbv
    | important =>
        rw [hbv]
        have hav' : ((Message.mergeFlag a b ((h.get b.changesRef).get MsgFlag.read) MsgFlag.read
            h).get a.changesRef).get MsgFlag.important = some x := by
          rw [mergeFlag_get_other a b _ MsgFlag.read h a.changesRef MsgFlag.important (by decide)]
          exact hav
        rw [mergeFlag_keep a b MsgFlag.important x y _ hav'
          (fun hc => hxy (Option.some.inj hc).symm)]
        refine ⟨hav', ?_⟩
        rw [mergeFlag_get_other a b _ MsgFlag.read h b.changesRef MsgFlag.important (by decide)]
        exact hbv
  · intro u sa sb x f
    cases sa <;> cases sb <;> cases x <;> cases f <;>
    simp [divergentSys, MsgFlag.other, mkMsg, flagAt, Engine.run,
      SC_getChanges_single_present, Messages.add, Message.learnChanges, Message.deepcopy,
      Messages.merge_single_single, Messages.merge_nil_ours, Messages.merge_nil_theirs,
      Message.merge_same_uid, Message.mergeFlag,
      StateController.update, List.foldl_cons, List.foldl_nil, Driver.update,
      StateStorage.update, Message.fakeDriverWrites, Message.fakeStateWrites,
      Changes.applyTo, Heap.get, Heap.set, Changes.get, Changes.set, Flags.get, Flags.set,
      look_single_hit, look_nil, dictSet_single_hit, dictSet_nil, defaultChanges]

/-- C7, witness: both parts at concrete inputs (`read` changed to
`True` on the left ledger and `False` on the right). -/
theorem C7_divergent_conflict_passthrough_witness :
    (((Messages.merge ⟨[defaultChanges, ⟨some true, none⟩, ⟨some false, none⟩]⟩
        [(1, mkMsg 1 ⟨false, false⟩ 1)] [(1, mkMsg 1 ⟨false, false⟩ 2)]).get 1).get MsgFlag.read
      = some true ∧
     ((Messages.merge ⟨[defaultChanges, ⟨some true, none⟩, ⟨some false, none⟩]⟩
        [(1, mkMsg 1 ⟨false, false⟩ 1)] [(1, mkMsg 1 ⟨false, false⟩ 2)]).get 2).get MsgFlag.read
      = some false) ∧
    (flagAt (Engine.run (divergentSys 1 ⟨false, false⟩ MsgFlag.read true)).left.data 1
        MsgFlag.read = some false ∧
     flagAt (Engine.run (divergentSys 1 ⟨false, false⟩ MsgFlag.read true)).right.data 1
        MsgFlag.read = some true) :=
  ⟨C7_divergent_conflict_passthrough.1 ⟨[defaultChanges, ⟨some true, none⟩, ⟨some false, none⟩]⟩
      (mkMsg 1 ⟨false, false⟩ 1) (mkMsg 1 ⟨false, false⟩ 2) MsgFlag.read true false
      (by decide) (by decide) (by decide) (by decide) (by decide) (by decide) (by decide)
      (by decide),
   C7_divergent_conflict_passthrough.2 1 false false true MsgFlag.read⟩

/-- C8, counterexample.  A successful apply (replica update then shared
state update) of a delta carrying `changes = {read: True}` leaves the
delta's ledger dictionary exactly as it was — `{read: True}`, not
all-`Unchanged`: no code path ever resets a ledger. -/
theorem C8_counterexample :
    flagAt (StateController.update ⟨[defaultChanges, ⟨some true, none⟩, ⟨none, none⟩, ⟨none, none⟩]⟩
        ⟨"rght", false, [(1, mkMsg 1 ⟨false, false⟩ 2)]⟩ ⟨[(1, mkMsg 1 ⟨false, false⟩ 3)]⟩
        [(1, mkMsg 1 ⟨false, false⟩ 1)]).2.1.data 1 MsgFlag.read = some true ∧
    flagAt (StateController.update ⟨[defaultChanges, ⟨some true, none⟩, ⟨none, none⟩, ⟨none, none⟩]⟩
        ⟨"rght", false, [(1, mkMsg 1 ⟨false, false⟩ 2)]⟩ ⟨[(1, mkMsg 1 ⟨false, false⟩ 3)]⟩
        [(1, mkMsg 1 ⟨false, false⟩ 1)]).2.2.data 1 MsgFlag.read = some true ∧
    (StateController.update ⟨[defaultChanges, ⟨some true, none⟩, ⟨none, none⟩, ⟨none, none⟩]⟩
        ⟨"rght", false, [(1, mkMsg 1 ⟨false, false⟩ 2)]⟩ ⟨[(1, mkMsg 1 ⟨false, false⟩ 3)]⟩
        [(1, mkMsg 1 ⟨false, false⟩ 1)]).1.get 1 = ⟨some true, none⟩ ∧
    (⟨some true, none⟩ : Changes) ≠ defaultChanges := by decide

/-- C8, amended.  The apply path (`StateController.update`) never
writes any change dictionary: the heap of ledgers is returned exactly
as given, so a durably applied record's `changes` and `stateChanges`
ledgers keep the applied delta instead of being reset to
all-`Unchanged`; the next round relies on flag comparison, not on
ledger reset. -/
theorem C8_apply_never_resets_ledgers (h : Heap) (d : Driver) (st : StateStorage)
    (batch : List (Nat × Message)) :
    (StateController.update h d st batch).1 = h ∧
    ∀ m : Message,
      (StateController.update h d st batch).1.get m.changesRef = h.get m.changesRef ∧
      (StateController.update h d st batch).1.get m.stateChangesRef = h.get m.stateChangesRef := by
  have key : ∀ (batch : List (Nat × Message)) (h : Heap) (d : Driver) (st : StateStorage),
      (StateController.update h d st batch).1 = h := by
    intro batch
    induction batch with
    | nil => intro h d st ; rfl
    | cons p rest ih =>
        intro h d st
        by_cases hok : (Driver.update h d p.2).2.2 = true
        · rw [SC_update_cons_ok h d st p rest hok, ih, state_update_heap,
            driver_update_heap]
        · have hfail : (Driver.update h d p.2).2.2 = false := by
            cases hv : (Driver.update h d p.2).2.2 with
            | true => exact absurd hv hok
            | false => rfl
          rw [SC_update_cons_fail h d st p rest hfail, ih, driver_update_heap]
  exact ⟨key batch h d st,
    fun m => ⟨by rw [key batch h d st], by rw [key batch h d st]⟩⟩

/-- C9.  Calling `Record.merge` or `Record.identical` on records of
different ids hits the `assert` immediately: the model returns `none`
(the `AssertionError`), produced before any heap write or field
mutation — the operation fails loudly and never silently continues. -/
theorem C9_identity_mismatch (h : Heap) (a b : Message) (hne : b.uid ≠ a.uid) :
    Message.merge h a b = none ∧ Message.identical a b = none := by
  simp [Message.merge, Message.identical, hne]

/-- C9, witness at concrete records of ids 1 and 2. -/
theorem C9_identity_mismatch_witness :
    Message.merge initHeap (Message.new 1 "a") (Message.new 2 "b") = none ∧
    Message.identical (Message.new 1 "a") (Message.new 2 "b") = none :=
  C9_identity_mismatch initHeap (Message.new 1 "a") (Message.new 2 "b") (by decide)

/-- C10.  Every freshly constructed `Message` assigns the class-level
`DEFAULT_CHANGES` dictionary itself (heap reference 0) to both
`self.changes` and `self.stateChanges`: the two ledgers of a fresh
record are one mutable mapping, shared with every other fresh record —
and a `learnChanges` write through one record's `changes` ledger is
read back through another fresh record's `stateChanges` ledger. -/
theorem C10_fresh_ledgers_shared (u1 u2 : Nat) (b1 b2 : String) :
    (Message.new u1 b1).changesRef = (Message.new u1 b1).stateChangesRef ∧
    (Message.new u1 b1).changesRef = 0 ∧
    (Message.new u2 b2).changesRef = 0 ∧
    (Message.new u2 b2).stateChangesRef = 0 ∧
    ((Message.learnChanges initHeap (Message.new u1 b1)
        ({ Message.new u2 b2 with flags := ⟨true, false⟩ })).get
      (Message.new u2 b2).stateChangesRef).get MsgFlag.read = some false :=
  ⟨rfl, rfl, rfl, rfl, rfl⟩
